import Mathlib

/-!
Verification development for the poker decision-engine core.

This file gives a shallow embedding, in Lean 4, of the algorithmic core of
the repository: the outs calculator (src/core/outs_calculator.py), the spot
analyzer's internal duplicate of it (src/core/spot_analyzer.py), the equity
simulator (src/core/hand_evaluator.py), the range notation parser
(src/core/range_parser.py) and the pot-math utilities
(src/core/poker_math.py).  Python floats are modelled as exact rationals,
Python round (half to even) as the function pyRound below, treys card
integers as (rank, suit) pairs, raised exceptions as Except errors, and the
random number generator of the equity simulator as an explicit function from
the trial index to the list of cards drawn in that trial.
-/

/-- Card in treys encoding: rank 0 = deuce .. 12 = ace; suit bit 1 = spades,
2 = hearts, 4 = diamonds, 8 = clubs.  Two treys card integers are equal iff
their (rank, suit) pairs are equal, so a pair is a faithful model. -/
structure Card where
  rank : Nat
  suit : Nat
deriving DecidableEq

/-- Model of treys Card.new composed with get_rank_int / get_suit_int: the
helper _create_card_from_rank_suit builds the card with the given rank and
suit, so in this embedding it is the identity on the pair. -/
def mkCard (r s : Nat) : Card := ⟨r, s⟩

/-- The suits in the order the source iterates them: spades, hearts,
diamonds, clubs. -/
def allSuits : List Nat := [1, 2, 4, 8]

/-- Auxiliary for dedupFirst: drop elements already seen. -/
def dedupFirstAux (seen : List Nat) : List Nat → List Nat
  | [] => []
  | x :: xs => if x ∈ seen then dedupFirstAux seen xs
               else x :: dedupFirstAux (x :: seen) xs

/-- First-occurrence deduplication, the iteration order of a CPython
Counter / dict built by insertion. -/
def dedupFirst (l : List Nat) : List Nat := dedupFirstAux [] l

/-- Insert into a descending-sorted list. -/
def insertDesc (x : Nat) : List Nat → List Nat
  | [] => [x]
  | y :: ys => if x ≥ y then x :: y :: ys else y :: insertDesc x ys

/-- Sort a list of naturals in descending order (Python sorted with
reverse=True). -/
def sortDesc : List Nat → List Nat
  | [] => []
  | x :: xs => insertDesc x (sortDesc xs)

/-- Insert into an ascending-sorted list. -/
def insertAsc (x : Nat) : List Nat → List Nat
  | [] => [x]
  | y :: ys => if x ≤ y then x :: y :: ys else y :: insertAsc x ys

/-- Sort a list of naturals in ascending order (Python sorted). -/
def sortAsc : List Nat → List Nat
  | [] => []
  | x :: xs => insertAsc x (sortAsc xs)

/-- Round half to even to an integer, the semantics of Python round on a
value held exactly.  Rat.floor is used because it evaluates; it agrees with
the mathematical floor (lemma ratFloor_eq below). -/
def rhe (q : ℚ) : ℤ :=
  if q - Rat.floor q < 1/2 then Rat.floor q
  else if (1:ℚ)/2 < q - Rat.floor q then Rat.floor q + 1
  else if Rat.floor q % 2 = 0 then Rat.floor q else Rat.floor q + 1

/-- Python round(x, 2). -/
def pyRound2 (q : ℚ) : ℚ := (rhe (q * 100) : ℚ) / 100

/-- Python round(x, 1). -/
def pyRound1 (q : ℚ) : ℚ := (rhe (q * 10) : ℚ) / 10

/-! ### Outs calculator (src/core/outs_calculator.py, class OutsCalculator) -/

/-- The flush-draw kinds produced by OutsCalculator.count_flush_outs. -/
inductive FlushKind
  | flushDraw
  | backdoorFlush
deriving DecidableEq

/-- Result dictionary of OutsCalculator.count_flush_outs.  The count is
rational because the backdoor case stores the fractional value 1.0.  The
suit name string of the source is determined by suit_int, which is kept. -/
structure FlushOuts where
  count : ℚ
  cards_needed : Nat
  ftype : Option FlushKind
  suit_int : Option Nat
deriving DecidableEq

/-- The scanning loop of count_flush_outs: iterate the suits in Counter
(first-occurrence) order; return at the first suit with exactly 4 cards
(real flush draw, 9 outs) or exactly 3 cards (backdoor flush, 1.0). -/
def flushScan (all : List Nat) : List Nat → FlushOuts
  | [] => ⟨0, 0, none, none⟩
  | s :: rest =>
    if all.count s = 4 then ⟨9, 1, some .flushDraw, some s⟩
    else if all.count s = 3 then ⟨1, 2, some .backdoorFlush, some s⟩
    else flushScan all rest

/-- OutsCalculator.count_flush_outs.  Builds Counter(hero_suits +
board_suits) and scans it in insertion order; there is no board-size test
anywhere in the function. -/
def count_flush_outs (hero_suits board_suits : List Nat) : FlushOuts :=
  let all := hero_suits ++ board_suits
  flushScan all (dedupFirst all)

/-- The straight-draw kinds of OutsCalculator.count_straight_outs, both for
individual windows and for the overall classification. -/
inductive StraightKind
  | openEnded
  | doubleGutshot
  | gutshot
  | wheel
  | topEnd
  | bottomEnd
deriving DecidableEq

/-- One possible draw recorded for a 5-rank window containing exactly 4 of
the held ranks. -/
structure DrawRec where
  missing_rank : Nat
  dtype : StraightKind
  window : List Nat
deriving DecidableEq

/-- Result dictionary of OutsCalculator.count_straight_outs. -/
structure StraightOuts where
  count : Nat
  stype : Option StraightKind
  missing_ranks : List Nat
deriving DecidableEq

/-- treys rank to standard poker value: 12 (ace) maps to 14, otherwise
rank + 2, exactly the conversion written in the source. -/
def convRank (r : Nat) : Nat := if r = 12 then 14 else r + 2

/-- Four descending values are consecutive (no gaps). -/
def consecDesc : List Nat → Bool
  | a :: b :: rest => a = b + 1 && consecDesc (b :: rest)
  | _ => true

/-- Analyze one 5-rank window: if exactly 4 of the held poker ranks lie in
it, record the missing rank and classify the pattern; the wheel window is
recorded with kind wheel without pattern analysis, as in the source. -/
def classifyWindow (poker_ranks : List Nat) (w : List Nat) (isWheelWindow : Bool) :
    Option DrawRec :=
  let cardsWeHave := poker_ranks.filter (· ∈ w)
  if cardsWeHave.length = 4 then
    let missing := (w.filter (fun r => r ∉ cardsWeHave)).headD 0
    if isWheelWindow then some ⟨missing, .wheel, w⟩
    else
      let sc := sortDesc cardsWeHave
      if consecDesc sc then
        let hi := sc.headD 0
        let lo := sc.getLastD 0
        if missing = hi + 1 then some ⟨missing, .topEnd, w⟩
        else if missing = lo - 1 then some ⟨missing, .bottomEnd, w⟩
        else some ⟨missing, .gutshot, w⟩
      else some ⟨missing, .gutshot, w⟩
  else none

/-- The window heads of the source loop range(14, 4, -1). -/
def windowHighs : List Nat := [14, 13, 12, 11, 10, 9, 8, 7, 6, 5]

/-- The nested scan looking for an adjacent bottom-end / top-end window
pair, in the iteration order of the source (outer loop over draws for the
bottom end, inner loop for the top end). -/
def findOESD (draws : List DrawRec) : Option (DrawRec × DrawRec) :=
  draws.findSome? fun d1 =>
    if d1.dtype = .bottomEnd then
      draws.findSome? fun d2 =>
        if d2.dtype = .topEnd ∧
            ((d1.window.headD 0 : Int) - (d2.window.headD 0 : Int)).natAbs = 1 then
          some (d1, d2)
        else none
    else none

/-- OutsCalculator.count_straight_outs. -/
def count_straight_outs (hero_ranks board_ranks : List Nat) : StraightOuts :=
  let poker_ranks := sortDesc (dedupFirst ((hero_ranks ++ board_ranks).map convRank))
  if poker_ranks.length < 4 then ⟨0, none, []⟩
  else
    let regular := windowHighs.filterMap fun h =>
      classifyWindow poker_ranks [h, h - 1, h - 2, h - 3, h - 4] false
    let wheelDraw := classifyWindow poker_ranks [5, 4, 3, 2, 14] true
    let draws := regular ++ (match wheelDraw with | some d => [d] | none => [])
    match draws with
    | [] => ⟨0, none, []⟩
    | d0 :: _ =>
      let types := draws.map (·.dtype)
      let oesd :=
        if .topEnd ∈ types ∧ .bottomEnd ∈ types then findOESD draws else none
      match oesd with
      | some (d1, d2) =>
        ⟨8, some .openEnded, sortAsc [d1.missing_rank, d2.missing_rank]⟩
      | none =>
        let uniqueMissing := dedupFirst (draws.map (·.missing_rank))
        if 2 ≤ uniqueMissing.length then
          ⟨8, some .doubleGutshot, sortAsc uniqueMissing⟩
        else
          ⟨4, some (if d0.dtype = .wheel then .wheel else .gutshot),
            [d0.missing_rank]⟩

/-- Result dictionary of OutsCalculator.count_overcard_outs. -/
structure OvercardOuts where
  count : Nat
  cards : List Nat
deriving DecidableEq

/-- OutsCalculator.count_overcard_outs: each unpaired hole rank above the
highest board rank contributes 3 outs; ranks held as a pocket pair are
excluded (they are counted under pair improvement). -/
def count_overcard_outs (hero_ranks board_ranks : List Nat) : OvercardOuts :=
  match board_ranks.max? with
  | none => ⟨0, []⟩
  | some maxBoard =>
    let overcards := hero_ranks.filter (· > maxBoard)
    if overcards = [] then ⟨0, []⟩
    else
      let uniqueOver := (dedupFirst overcards).filter
        (fun r => ¬ hero_ranks.count r = 2)
      ⟨uniqueOver.length * 3, uniqueOver⟩

/-- Result dictionary of OutsCalculator.count_pair_improvement_outs. -/
structure PairOuts where
  count : Nat
  to_trips : Nat
  to_two_pair : Nat
deriving DecidableEq

/-- OutsCalculator.count_pair_improvement_outs: if some rank appears exactly
twice in hand + board, 2 outs to trips plus 3 outs per unpaired hole
card. -/
def count_pair_improvement_outs (hero_ranks board_ranks : List Nat) : PairOuts :=
  let all := hero_ranks ++ board_ranks
  let pairs := (dedupFirst all).filter (fun r => all.count r = 2)
  if pairs = [] then ⟨0, 0, 0⟩
  else
    let unpairedHero := hero_ranks.filter (fun r => all.count r = 1)
    let toTwoPair := unpairedHero.length * 3
    ⟨2 + toTwoPair, 2, toTwoPair⟩

/-- The per-category breakdown dictionary returned by
OutsCalculator.calculate_outs. -/
structure OutsBreakdown where
  flush_draw : FlushOuts
  straight_draw : StraightOuts
  overcards : OvercardOuts
  pair_outs : PairOuts
deriving DecidableEq

/-- The full result dictionary of OutsCalculator.calculate_outs. -/
structure OutsResult where
  count : ℚ
  breakdown : OutsBreakdown
  unknown_cards : Nat
  unique_out_cards : List (Nat × Nat)
deriving DecidableEq

/-- Convert a poker missing rank back to a treys rank, as in the source:
14 maps to 12, otherwise subtract 2. -/
def pokerToTreys (p : Nat) : Nat := if p = 14 then 12 else p - 2

/-- Body of OutsCalculator.calculate_outs.  The Python function contains no
validation and no raise statement, so this body is total; the set of
specific out cards is built as a duplicate-free list in the insertion order
of the source (flush cards, then straight completions, then overcard
completions). -/
def calculateOutsImpl (hero_cards board_cards : List Card) : OutsResult :=
  let hero_ranks := hero_cards.map (·.rank)
  let hero_suits := hero_cards.map (·.suit)
  let board_ranks := board_cards.map (·.rank)
  let board_suits := board_cards.map (·.suit)
  let all_cards := hero_cards ++ board_cards
  let flushOuts := count_flush_outs hero_suits board_suits
  let flushOutCards : List (Nat × Nat) :=
    if flushOuts.count > 0 ∧ flushOuts.ftype = some .flushDraw then
      match flushOuts.suit_int with
      | some s => (List.range 13).filterMap fun r =>
          if mkCard r s ∈ all_cards then none else some (r, s)
      | none => []
    else []
  let straightOuts := count_straight_outs hero_ranks board_ranks
  let straightOutRanks : List Nat :=
    if straightOuts.count > 0 then straightOuts.missing_ranks.map pokerToTreys
    else []
  let overcardOuts := count_overcard_outs hero_ranks board_ranks
  let overcardOutRanks : List Nat :=
    if overcardOuts.count > 0 then overcardOuts.cards else []
  let straightAdds : List (Nat × Nat) := straightOutRanks.flatMap fun r =>
    allSuits.filterMap fun s =>
      if (r, s) ∈ flushOutCards then none
      else if mkCard r s ∈ all_cards then none
      else some (r, s)
  let afterStraight := flushOutCards ++ straightAdds
  let overcardAdds : List (Nat × Nat) := overcardOutRanks.flatMap fun r =>
    allSuits.filterMap fun s =>
      if (r, s) ∈ afterStraight then none
      else if mkCard r s ∈ all_cards then none
      else some (r, s)
  let uniqueOuts := afterStraight ++ overcardAdds
  let pairOuts := count_pair_improvement_outs hero_ranks board_ranks
  let backdoorBonus : ℚ :=
    if flushOuts.ftype = some .backdoorFlush then flushOuts.count else 0
  ⟨(uniqueOuts.length : ℚ) + (pairOuts.count : ℚ) + backdoorBonus,
    ⟨flushOuts, straightOuts, overcardOuts, pairOuts⟩,
    52 - all_cards.length,
    uniqueOuts⟩

/-- The Python-level error taxonomy used by the spec for the modules
embedded here. -/
inductive PyError
  | invalidBoardSize
  | zeroDivision
  | indexError
deriving DecidableEq

/-- OutsCalculator.calculate_outs as a fallible operation.  The source
method performs no input validation and contains no raise statement, so
every input returns normally; the Except wrapper records that no error
path exists. -/
def calculate_outs (hero_cards board_cards : List Card) :
    Except PyError OutsResult :=
  .ok (calculateOutsImpl hero_cards board_cards)

/-! ### Spot analyzer internal outs calculation
(src/core/spot_analyzer.py, SpotAnalyzer._calculate_outs and helpers).
This is a separate, simplified implementation living inside the analyzer,
distinct from OutsCalculator above. -/

/-- The flush kinds of SpotAnalyzer._count_flush_outs. -/
inductive SpotFlushKind
  | flushDraw
  | backdoorFlushTurn
deriving DecidableEq

/-- Result of SpotAnalyzer._count_flush_outs.  The source indexes the
4-element name list with the treys suit bit, so suits 4 (diamonds) and
8 (clubs) raise IndexError, and suits 1 and 2 fetch the wrong name; the
name lookup is modelled by List.get? on the same list. -/
structure SpotFlushOuts where
  count : Nat
  cards_needed : Nat
  ftype : Option SpotFlushKind
  suit_name : Option String
deriving DecidableEq

/-- The suit-name list written in spot_analyzer.py, indexed (incorrectly)
by the treys suit bit. -/
def spotSuitNames : List String := ["spades", "hearts", "diamonds", "clubs"]

/-- Scanning loop of SpotAnalyzer._count_flush_outs: a count-4 suit is a
flush draw; a count-3 suit is reported (as 9 outs) only when hand and board
total exactly 5 cards; any other suit lets the loop continue. -/
def spotFlushScan (all : List Nat) (totalLen : Nat) : List Nat → Except PyError SpotFlushOuts
  | [] => .ok ⟨0, 0, none, none⟩
  | s :: rest =>
    if all.count s = 4 then
      match spotSuitNames.get? s with
      | some n => .ok ⟨9, 1, some .flushDraw, some n⟩
      | none => .error .indexError
    else if all.count s = 3 ∧ totalLen = 5 then
      match spotSuitNames.get? s with
      | some n => .ok ⟨9, 1, some .backdoorFlushTurn, some n⟩
      | none => .error .indexError
    else spotFlushScan all totalLen rest

/-- SpotAnalyzer._count_flush_outs. -/
def spot_count_flush_outs (hero_suits board_suits : List Nat) :
    Except PyError SpotFlushOuts :=
  let all := hero_suits ++ board_suits
  spotFlushScan all (board_suits ++ hero_suits).length (dedupFirst all)

/-- Result of SpotAnalyzer._count_straight_outs. -/
structure SpotStraightOuts where
  count : Nat
  stype : Option StraightKind
deriving DecidableEq

/-- SpotAnalyzer._has_straight_draw_pattern: scan for an index i with
ranks[i] - ranks[i+3] <= 4 (signed comparison). -/
def hasStraightDrawPattern : List Int → Bool
  | a :: rest =>
    match rest.get? 2 with
    | some d => if a - d ≤ 4 then true else hasStraightDrawPattern rest
    | none => false
  | [] => false

/-- SpotAnalyzer._count_straight_outs.  The source converts each treys rank
r of the descending unique list to 12 - r (an ascending list), then runs
the pattern scan, which therefore succeeds whenever at least 4 distinct
ranks are held; a hit is always reported as an 8-out open-ended draw. -/
def spot_count_straight_outs (hero_ranks board_ranks : List Nat) : SpotStraightOuts :=
  let uniqueRanks := sortDesc (dedupFirst (hero_ranks ++ board_ranks))
  let poker_ranks : List Int := uniqueRanks.map (fun r => 12 - (r : Int))
  if poker_ranks.length < 4 then ⟨0, none⟩
  else if hasStraightDrawPattern poker_ranks then ⟨8, some .openEnded⟩
  else ⟨0, none⟩

/-- SpotAnalyzer._count_overcard_outs: like the calculator's version but
without the pocket-pair exclusion. -/
def spot_count_overcard_outs (hero_ranks board_ranks : List Nat) : OvercardOuts :=
  match board_ranks.max? with
  | none => ⟨0, []⟩
  | some maxBoard =>
    let overcards := hero_ranks.filter (· > maxBoard)
    if overcards = [] then ⟨0, []⟩
    else
      let uniqueOver := dedupFirst overcards
      ⟨uniqueOver.length * 3, uniqueOver⟩

/-- SpotAnalyzer._count_pair_improvement_outs is textually the same
algorithm as OutsCalculator.count_pair_improvement_outs. -/
def spot_count_pair_improvement_outs (hero_ranks board_ranks : List Nat) : PairOuts :=
  count_pair_improvement_outs hero_ranks board_ranks

/-- Result of SpotAnalyzer._count_backdoor_flush. -/
structure SpotBackdoorFlush where
  count : Nat
  suit_name : Option String
deriving DecidableEq

/-- Scanning loop of SpotAnalyzer._count_backdoor_flush, with the same
faulty suit-name indexing. -/
def spotBackdoorScan (all : List Nat) : List Nat → Except PyError SpotBackdoorFlush
  | [] => .ok ⟨0, none⟩
  | s :: rest =>
    if all.count s = 3 then
      match spotSuitNames.get? s with
      | some n => .ok ⟨1, some n⟩
      | none => .error .indexError
    else spotBackdoorScan all rest

/-- SpotAnalyzer._count_backdoor_flush. -/
def spot_count_backdoor_flush (hero_suits board_suits : List Nat) :
    Except PyError SpotBackdoorFlush :=
  let all := hero_suits ++ board_suits
  spotBackdoorScan all (dedupFirst all)

/-- The breakdown dictionary of SpotAnalyzer._calculate_outs. -/
structure SpotOutsBreakdown where
  flush_draw : SpotFlushOuts
  straight_draw : SpotStraightOuts
  overcards : OvercardOuts
  pair_outs : PairOuts
  backdoor_flush : SpotBackdoorFlush
deriving DecidableEq

/-- The result dictionary of SpotAnalyzer._calculate_outs. -/
structure SpotOutsResult where
  count : Nat
  breakdown : SpotOutsBreakdown
  unknown_cards : Nat
deriving DecidableEq

/-- SpotAnalyzer._calculate_outs: the total is the plain sum of the four
category counts (no overlap removal), and the backdoor-flush count is
computed (on a 3-card board) but never added to the total. -/
def spot_calculate_outs (hero_cards board_cards : List Card) :
    Except PyError SpotOutsResult := do
  let hero_ranks := hero_cards.map (·.rank)
  let hero_suits := hero_cards.map (·.suit)
  let board_ranks := board_cards.map (·.rank)
  let board_suits := board_cards.map (·.suit)
  let all_cards := hero_cards ++ board_cards
  let flushOuts ← spot_count_flush_outs hero_suits board_suits
  let straightOuts := spot_count_straight_outs hero_ranks board_ranks
  let overcardOuts := spot_count_overcard_outs hero_ranks board_ranks
  let pairOuts := spot_count_pair_improvement_outs hero_ranks board_ranks
  let total := flushOuts.count + straightOuts.count + overcardOuts.count +
    pairOuts.count
  let backdoor ←
    if board_cards.length = 3 then spot_count_backdoor_flush hero_suits board_suits
    else pure ⟨0, none⟩
  .ok ⟨total, ⟨flushOuts, straightOuts, overcardOuts, pairOuts, backdoor⟩,
    52 - all_cards.length⟩

/-! ### Pot math utilities (src/core/poker_math.py) and the spot analyzer
near-duplicates (src/core/spot_analyzer.py). -/

/-- The three shapes of the ratio string produced by percentage_to_ratio:
"0:1" when the percentage is at least 100, the infinity string when it is
at most 0, and otherwise the one-decimal formatted odds-against value. -/
inductive RatioRepr
  | zeroToOne
  | infiniteToOne
  | oddsAgainst (q : ℚ)
deriving DecidableEq

/-- poker_math.percentage_to_ratio (the analyzer method
_percentage_to_ratio implements the same mapping); the .1f formatting of
the odds-against value is modelled by pyRound1. -/
def percentageToRatioRepr (p : ℚ) : RatioRepr :=
  if p ≥ 100 then .zeroToOne
  else if p ≤ 0 then .infiniteToOne
  else .oddsAgainst (pyRound1 ((100 - p) / p))

/-- poker_math.calculate_pot_odds: divides by pot_size + bet_to_call with
no guard, so Python raises ZeroDivisionError when that sum is zero. -/
def calculate_pot_odds (pot_size bet_to_call : ℚ) : Except PyError ℚ :=
  let total_pot := pot_size + bet_to_call
  if total_pot = 0 then .error .zeroDivision
  else .ok (pyRound2 (bet_to_call / total_pot * 100))

/-- SpotAnalyzer._calculate_pot_odds: returns 0.0 when bet_to_call is 0 or
when pot + bet is 0, so it never divides by zero. -/
def spot_calculate_pot_odds (pot_size bet_to_call : ℚ) : ℚ :=
  if bet_to_call = 0 then 0
  else
    let total_pot := pot_size + bet_to_call
    if total_pot = 0 then 0
    else pyRound2 (bet_to_call / total_pot * 100)

/-- The implied-odds result dictionary (both implementations). -/
structure ImpliedOdds where
  percentage : ℚ
  ratio : RatioRepr
  estimated_future_winnings : ℚ
deriving DecidableEq

/-- poker_math.estimate_implied_odds: future winnings are the effective
stack times min(outs / 15, 1) times 0.5; the required equity is bet over
pot + bet + winnings. -/
def estimate_implied_odds (pot_size bet_to_call effective_stack outs : ℚ) :
    Except PyError ImpliedOdds :=
  let outMultiplier := min (outs / 15) 1
  let winnings := effective_stack * outMultiplier * (1/2)
  let impliedPot := pot_size + bet_to_call + winnings
  if impliedPot = 0 then .error .zeroDivision
  else
    let pct := bet_to_call / impliedPot * 100
    .ok ⟨pyRound2 pct, percentageToRatioRepr pct, winnings⟩

/-- SpotAnalyzer._estimate_implied_odds: the outs parameter is accepted but
never read; future winnings are always half of effective_stack minus
bet_to_call. -/
def spot_estimate_implied_odds (pot_size bet_to_call effective_stack : ℚ)
    (outs : ℚ) : Except PyError ImpliedOdds :=
  let remaining := effective_stack - bet_to_call
  let winnings := remaining * (1/2)
  let impliedPot := pot_size + bet_to_call + winnings
  if impliedPot = 0 then .error .zeroDivision
  else
    let pct := bet_to_call / impliedPot * 100
    .ok ⟨pyRound2 pct, percentageToRatioRepr pct, pyRound2 winnings⟩

/-- The implied-odds component of SpotAnalyzer.analyze: when pot size, bet
and effective stack are all supplied, analyze computes
_estimate_implied_odds(pot, bet, stack, outs_data count) where outs_data is
its own _calculate_outs result (spot_analyzer.py lines 128-135). -/
def analyzeImpliedOdds (hero_cards board_cards : List Card)
    (pot_size bet_to_call effective_stack : ℚ) : Except PyError ImpliedOdds := do
  let outsData ← spot_calculate_outs hero_cards board_cards
  spot_estimate_implied_odds pot_size bet_to_call effective_stack
    (outsData.count : ℚ)

/-! ### Equity simulator (src/core/hand_evaluator.py, EquityCalculator). -/

/-- The validation failures of EquityCalculator.calculate (the source
raises ValueError with a distinct message in each case). -/
inductive EquityError
  | invalidHeroSize
  | invalidVillainSize
  | invalidBoardSize
  | duplicateCards
  | zeroIterations
deriving DecidableEq

/-- The result dictionary of EquityCalculator.calculate. -/
structure EquityResult where
  hero_equity : ℚ
  villain_equity : ℚ
  hero_wins : Nat
  villain_wins : Nat
  ties : Nat
  iterations : Nat
deriving DecidableEq

/-- The board completed in trial i: the source draws exactly 5 minus the
board length cards from the shuffled remaining deck and appends them.  The
shuffled deck is modelled by the injectable function drawFn from the trial
index to the drawn cards, truncated to the number of cards the source
actually draws. -/
def simBoard (board : List Card) (drawFn : Nat → List Card) (i : Nat) : List Card :=
  board ++ (drawFn i).take (5 - board.length)

/-- Hero wins trial i when his score on the completed board is strictly
lower (treys convention: lower is stronger). -/
def trialHeroWin (score : List Card → List Card → Nat)
    (hero villain board : List Card) (drawFn : Nat → List Card) (i : Nat) : Bool :=
  decide (score (simBoard board drawFn i) hero <
    score (simBoard board drawFn i) villain)

/-- Villain wins trial i when his score is strictly lower. -/
def trialVillainWin (score : List Card → List Card → Nat)
    (hero villain board : List Card) (drawFn : Nat → List Card) (i : Nat) : Bool :=
  decide (score (simBoard board drawFn i) villain <
    score (simBoard board drawFn i) hero)

/-- Trial i is a tie when neither score is strictly lower (the else branch
of the source comparison). -/
def trialTie (score : List Card → List Card → Nat)
    (hero villain board : List Card) (drawFn : Nat → List Card) (i : Nat) : Bool :=
  !trialHeroWin score hero villain board drawFn i &&
    !trialVillainWin score hero villain board drawFn i

/-- EquityCalculator.calculate.  The hand-ranking oracle (treys Evaluator,
an external library dependency) is the parameter score.  Equities are the
Python round(x, 2) of (wins + ties/2) / iterations * 100; an iteration
count of zero makes that division raise ZeroDivisionError in the source
(re-raised as ValueError by its catch-all), modelled as zeroIterations. -/
def EquityCalculator.calculate (score : List Card → List Card → Nat)
    (hero villain board : List Card) (iterations : Nat)
    (drawFn : Nat → List Card) : Except EquityError EquityResult :=
  if hero.length ≠ 2 then .error .invalidHeroSize
  else if villain.length ≠ 2 then .error .invalidVillainSize
  else if board.length > 5 then .error .invalidBoardSize
  else if ¬ (hero ++ villain ++ board).Nodup then .error .duplicateCards
  else if iterations = 0 then .error .zeroIterations
  else
    .ok ⟨pyRound2
        ((((List.range iterations).countP (trialHeroWin score hero villain board drawFn) : ℚ) +
          ((List.range iterations).countP (trialTie score hero villain board drawFn) : ℚ) / 2) /
          (iterations : ℚ) * 100),
      pyRound2
        ((((List.range iterations).countP (trialVillainWin score hero villain board drawFn) : ℚ) +
          ((List.range iterations).countP (trialTie score hero villain board drawFn) : ℚ) / 2) /
          (iterations : ℚ) * 100),
      (List.range iterations).countP (trialHeroWin score hero villain board drawFn),
      (List.range iterations).countP (trialVillainWin score hero villain board drawFn),
      (List.range iterations).countP (trialTie score hero villain board drawFn),
      iterations⟩

/-! ### A concrete hand-ranking oracle.

Modelled from the spec: the Hand Ranking Oracle of section 2 is an external
capability (the treys Evaluator library), not code under src/.  The spec
describes it as any conformant 5-7 card poker hand evaluator returning a
totally ordered strength score, lower being conventionally stronger.  The
definitions below implement the standard best-5-of-7 poker evaluation and
are used only to instantiate the score parameter at concrete inputs. -/

/-- Strength of exactly five cards, higher is stronger: category times
15^5 plus the standard tie-break ranks encoded base 15. -/
def strength5 (cs : List Card) : Nat :=
  let pvs := sortDesc (cs.map (fun c => c.rank + 2))
  let suits := cs.map (·.suit)
  let isFlush : Bool := match suits with
    | [] => true
    | s :: rest => rest.all (fun t => decide (t = s))
  let distinct := dedupFirst pvs
  let isWheel : Bool := decide (pvs = [14, 5, 4, 3, 2])
  let isStraight : Bool := (decide (pvs.length = 5) && consecDesc pvs) || isWheel
  let quads := distinct.filter (fun v => pvs.count v = 4)
  let trips := distinct.filter (fun v => pvs.count v = 3)
  let pairsL := distinct.filter (fun v => pvs.count v = 2)
  let singles := distinct.filter (fun v => pvs.count v = 1)
  let straightHigh := if isWheel then 5 else pvs.headD 0
  let catTb : Nat × List Nat :=
    if isStraight && isFlush then (8, [straightHigh])
    else if !quads.isEmpty then (7, quads ++ singles)
    else if !trips.isEmpty && !pairsL.isEmpty then (6, trips ++ pairsL)
    else if isFlush then (5, pvs)
    else if isStraight then (4, [straightHigh])
    else if !trips.isEmpty then (3, trips ++ singles)
    else if 2 ≤ pairsL.length then (2, pairsL ++ singles)
    else if !pairsL.isEmpty then (1, pairsL ++ singles)
    else (0, pvs)
  (catTb.1 :: (catTb.2 ++ List.replicate (5 - catTb.2.length) 0)).foldl
    (fun a v => a * 15 + v) 0

/-- Best strength over all 5-card subsets of the 7 cards. -/
def bestStrength (cs : List Card) : Nat :=
  ((List.sublistsLen 5 cs).map strength5).foldl Nat.max 0

/-- Modelled from the spec: the score of the Hand Ranking Oracle for a hand
on a board, lower is stronger, mirroring the treys convention used by
EquityCalculator.calculate. -/
def pokerScore (board hand : List Card) : Nat :=
  11390625 - bestStrength (hand ++ board)

/-! ### Range notation parser (src/core/range_parser.py).  Python strings
are modelled as lists of characters. -/

/-- The single error kind of the parser: every malformed element raises
ValueError (named InvalidRangeNotationError by the spec). -/
inductive RangeError
  | invalidToken
deriving DecidableEq

/-- The RANKS constant: ranks from strongest to weakest. -/
def RANKS : List Char := ['A', 'K', 'Q', 'J', 'T', '9', '8', '7', '6', '5', '4', '3', '2']

/-- Index of a rank character in RANKS (RANK_VALUES lookup). -/
def rankIdx (c : Char) : Option Nat := RANKS.indexOf? c

/-- RANK_VALUES.get(c, 99), the default used by _normalize_hand and
_sort_hands. -/
def rankIdx99 (c : Char) : Nat := (rankIdx c).getD 99

/-- Python range(a, b) as a list of naturals. -/
def listRange (a b : Nat) : List Nat := (List.range (b - a)).map (a + ·)

/-- Python str.split on a single separator character. -/
def splitOnChar (sep : Char) (l : List Char) : List (List Char) :=
  l.foldr
    (fun c acc =>
      match acc with
      | cur :: rest => if c = sep then [] :: cur :: rest else (c :: cur) :: rest
      | [] => [[c]])
    [[]]

/-- Python str.strip for the whitespace around tokens. -/
def trimChars (l : List Char) : List Char :=
  ((l.dropWhile Char.isWhitespace).reverse.dropWhile Char.isWhitespace).reverse

/-- Python str.upper on the character list. -/
def upperChars (l : List Char) : List Char := l.map Char.toUpper

/-- RangeParser._normalize_hand: uppercase, put the higher rank first using
the 99-defaulted rank values and lowercase a trailing suit marker;
two-character and three-character tokens only, everything else is returned
unchanged.  Note there is no rank validation here. -/
def normalizeHand (hand : List Char) : List Char :=
  let h := upperChars hand
  match h with
  | [r1, r2] => if rankIdx99 r1 > rankIdx99 r2 then [r2, r1] else [r1, r2]
  | [r1, r2, st] =>
    let s := st.toLower
    if rankIdx99 r1 > rankIdx99 r2 then [r2, r1, s] else [r1, r2, s]
  | other => other

/-- RangeParser._expand_plus on the base token (the element without its
trailing plus).  A base of any length other than 2 or 3 silently yields no
hands, as in the source. -/
def expandPlus (base : List Char) : Except RangeError (List (List Char)) :=
  match base with
  | [r1, r2] =>
    if r1 = r2 then
      match rankIdx r1 with
      | none => .error .invalidToken
      | some i => .ok ((listRange 0 (i + 1)).map fun j =>
          [RANKS.getD j 'A', RANKS.getD j 'A'])
    else
      match rankIdx r1, rankIdx r2 with
      | some hi, some lo =>
        .ok ((listRange (hi + 1) (lo + 1)).flatMap fun i =>
          [[r1, RANKS.getD i 'A', 's'], [r1, RANKS.getD i 'A', 'o']])
      | _, _ => .error .invalidToken
  | [r1, r2, st] =>
    let s := st.toLower
    if s ≠ 's' ∧ s ≠ 'o' then .error .invalidToken
    else
      match rankIdx r1, rankIdx r2 with
      | some hi, some lo =>
        .ok ((listRange (hi + 1) (lo + 1)).map fun i => [r1, RANKS.getD i 'A', s])
      | _, _ => .error .invalidToken
  | _ => .ok []

/-- RangeParser._expand_range on a dash element.  A split into anything but
exactly two parts fails; the pair branch requires both ends to be doubled
rank characters, the suited branch requires matching high cards and suit
markers; anything else fails. -/
def expandDashRange (el : List Char) : Except RangeError (List (List Char)) :=
  match splitOnChar '-' el with
  | [p1, p2] =>
    let start := upperChars (trimChars p1)
    let stop := upperChars (trimChars p2)
    match start, stop with
    | [a, b], [c, d] =>
      if a = b ∧ c = d then
        match rankIdx a, rankIdx c with
        | some i1, some i2 =>
          let lo := min i1 i2
          let hi := max i1 i2
          .ok ((listRange lo (hi + 1)).map fun i =>
            [RANKS.getD i 'A', RANKS.getD i 'A'])
        | _, _ => .error .invalidToken
      else .error .invalidToken
    | [a1, b1, s1], [a2, b2, s2] =>
      if a1 ≠ a2 then .error .invalidToken
      else if s1.toLower ≠ s2.toLower then .error .invalidToken
      else
        match rankIdx b1, rankIdx b2 with
        | some i1, some i2 =>
          let lo := min i1 i2
          let hi := max i1 i2
          .ok ((listRange lo (hi + 1)).map fun i => [a1, RANKS.getD i 'A', s1.toLower])
        | _, _ => .error .invalidToken
    | _, _ => .error .invalidToken
  | _ => .error .invalidToken

/-- RangeParser.expand_notation: strip and uppercase, then dispatch on a
contained dash, a trailing plus, or a single hand. -/
def expandElement (element : List Char) : Except RangeError (List (List Char)) :=
  let e := upperChars (trimChars element)
  if '-' ∈ e then expandDashRange e
  else if e.getLast? = some '+' then expandPlus e.dropLast
  else .ok [normalizeHand e]

/-- Insert a hand into the accumulated set if it is not already present
(Python set update). -/
def insertHand (acc : List (List Char)) (h : List Char) : List (List Char) :=
  if h ∈ acc then acc else acc ++ [h]

/-- The sort key of RangeParser._sort_hands, encoded so that lexicographic
tuple comparison becomes comparison of a single natural number. -/
def handSortKey (h : List Char) : Nat :=
  match h with
  | [r1, _] => 0 * 100000000 + rankIdx99 r1 * 1000000
  | [r1, r2, st] =>
    100000000 + rankIdx99 r1 * 1000000 + rankIdx99 r2 * 10000 +
      (if st.toLower = 's' then 0 else 1)
  | _ => 9900000000

/-- Stable insertion into a list sorted by handSortKey. -/
def insertHandSorted (x : List Char) : List (List Char) → List (List Char)
  | [] => [x]
  | y :: ys =>
    if handSortKey y ≤ handSortKey x then y :: insertHandSorted x ys
    else x :: y :: ys

/-- RangeParser._sort_hands (Python sorted is a stable sort by the key). -/
def sortHands : List (List Char) → List (List Char)
  | [] => []
  | x :: xs => insertHandSorted x (sortHands xs)

/-- The combo-count dictionary of RangeParser.count_combos. -/
structure ComboCounts where
  pairs : Nat
  suited : Nat
  offsuit : Nat
  total : Nat
deriving DecidableEq

/-- RangeParser.count_combos: 6 per two-character hand, 4 per suited
three-character hand, 12 per other three-character hand. -/
def countCombos (hands : List (List Char)) : ComboCounts :=
  let pairs := 6 * (hands.filter (fun h => h.length = 2)).length
  let suited := 4 * (hands.filter
    (fun h => h.length = 3 ∧ (h.getLastD ' ').toLower = 's')).length
  let offsuit := 12 * (hands.filter
    (fun h => h.length = 3 ∧ (h.getLastD ' ').toLower ≠ 's')).length
  ⟨pairs, suited, offsuit, pairs + suited + offsuit⟩

/-- The result dictionary of RangeParser.parse. -/
structure RangeResult where
  hands : List (List Char)
  combos : ComboCounts
  total_combos : Nat
  percentage : ℚ
deriving DecidableEq

/-- RangeParser.parse, also exposed at module level as parse_range: split
the notation on commas, expand each non-empty stripped element, union the
hands, sort them, count combos and derive the percentage of the 1326
starting combinations rounded to one decimal. -/
def parse_range (input : List Char) : Except RangeError RangeResult :=
  if trimChars input = [] then
    .ok ⟨[], ⟨0, 0, 0, 0⟩, 0, 0⟩
  else do
    let elements := (splitOnChar ',' input).map trimChars
    let hands ← elements.foldlM
      (fun acc el => do
        if el = [] then pure acc
        else
          let ex ← expandElement el
          pure (ex.foldl insertHand acc))
      []
    let sorted := sortHands hands
    let combos := countCombos sorted
    .ok ⟨sorted, combos, combos.total,
      pyRound1 ((combos.total : ℚ) / 1326 * 100)⟩

/-! ### Shared concrete inputs used by the theorems below. -/

/-- Hand Ah Kh in the treys encoding. -/
def exampleHand : List Card := [⟨12, 2⟩, ⟨11, 2⟩]

/-- Board Qh Jh 2c. -/
def exampleBoard : List Card := [⟨10, 2⟩, ⟨9, 2⟩, ⟨0, 8⟩]

/-- The out total computed by the spot analyzer's own _calculate_outs on
the example input (0 is unreachable as the computation succeeds there). -/
def spotExampleCount : ℚ :=
  match spot_calculate_outs exampleHand exampleBoard with
  | .ok r => (r.count : ℚ)
  | .error _ => 0

/-- The out total computed by OutsCalculator.calculate_outs on the same
input. -/
def calcExampleCount : ℚ := (calculateOutsImpl exampleHand exampleBoard).count

/-- Hand 2h 7d, a hand with no draws on the board below. -/
def noDrawHand : List Card := [⟨0, 2⟩, ⟨5, 4⟩]

/-- Board 9s Jc Kd. -/
def noDrawBoard : List Card := [⟨7, 1⟩, ⟨9, 8⟩, ⟨11, 4⟩]

/-- Hand 2h 2d, which has zero outs by the spot analyzer's counting on the
board below. -/
def zeroOutsHand : List Card := [⟨0, 2⟩, ⟨0, 4⟩]

/-- Board 2c 7d 9s. -/
def zeroOutsBoard : List Card := [⟨0, 8⟩, ⟨5, 4⟩, ⟨7, 1⟩]

/-- A river board that is a royal flush on its own: As Ks Qs Js Ts. -/
def royalBoard : List Card := [⟨12, 1⟩, ⟨11, 1⟩, ⟨10, 1⟩, ⟨9, 1⟩, ⟨8, 1⟩]

/-! ### Helper lemmas. -/

/-- Batteries Rat.floor agrees with the mathematical floor. -/
theorem ratFloor_eq (q : ℚ) : (Rat.floor q : ℤ) = ⌊q⌋ := by
  rw [Rat.floor_def]
  exact Rat.floor_def' q

/-- Round half to even splits an even integer total exactly: rounding y and
its complement to 10000 always sums back to 10000. -/
theorem rhe_compl (y : ℚ) : rhe y + rhe (10000 - y) = 10000 := by
  have hfl : (Rat.floor y : ℤ) = ⌊y⌋ := ratFloor_eq y
  have hfl2 : (Rat.floor (10000 - y) : ℤ) = ⌊(10000 : ℚ) - y⌋ := ratFloor_eq _
  have h1 : (⌊y⌋ : ℚ) ≤ y := Int.floor_le y
  have h2 : y < ⌊y⌋ + 1 := Int.lt_floor_add_one y
  by_cases hz : y - (⌊y⌋ : ℚ) = 0
  · have hfl3 : ⌊(10000 : ℚ) - y⌋ = 10000 - ⌊y⌋ := by
      apply Int.floor_eq_iff.mpr
      constructor
      · push_cast
        linarith
      · push_cast
        linarith
    unfold rhe
    rw [hfl, hfl2, hfl3]
    split_ifs <;> first | omega | (exfalso; push_cast at *; linarith)
  · have ha0 : 0 < y - (⌊y⌋ : ℚ) := by
      rcases lt_or_gt_of_ne hz with h | h
      · linarith
      · linarith
    have ha1 : y - (⌊y⌋ : ℚ) < 1 := by linarith
    have hfl3 : ⌊(10000 : ℚ) - y⌋ = 9999 - ⌊y⌋ := by
      apply Int.floor_eq_iff.mpr
      constructor
      · push_cast
        linarith
      · push_cast
        linarith
    unfold rhe
    rw [hfl, hfl2, hfl3]
    split_ifs <;> first | omega | (exfalso; push_cast at *; linarith)

/-- Python round(x, 2) of a value and of its complement to 100 sum to
exactly 100. -/
theorem pyRound2_compl (x : ℚ) : pyRound2 x + pyRound2 (100 - x) = 100 := by
  unfold pyRound2
  have he : (100 - x) * 100 = 10000 - x * 100 := by ring
  rw [he]
  have h := rhe_compl (x * 100)
  have hq : ((rhe (x * 100) : ℚ)) + ((rhe (10000 - x * 100) : ℤ) : ℚ) = 10000 := by
    exact_mod_cast congrArg (fun z : ℤ => (z : ℚ)) h
  linarith

/-- Evaluation of pyRound2 at 0. -/
theorem pyRound2_zero : pyRound2 0 = 0 := by with_unfolding_all rfl

/-- Evaluation of pyRound2 at 50. -/
theorem pyRound2_fifty : pyRound2 50 = 50 := by with_unfolding_all rfl

/-- Evaluation of pyRound2 at 100. -/
theorem pyRound2_hundred : pyRound2 100 = 100 := by with_unfolding_all rfl

/-- Three mutually exclusive and exhaustive boolean outcomes partition a
list: win, loss and the residual tie case counted by the source's
if / elif / else. -/
theorem countP_partition (p q : Nat → Bool) (hpq : ∀ a, p a = true → q a = false) :
    ∀ l : List Nat,
      l.countP p + l.countP q + l.countP (fun a => !p a && !q a) = l.length := by
  intro l
  induction l with
  | nil => simp [List.countP_nil]
  | cons x xs ih =>
    cases hp : p x with
    | true =>
      cases hq : q x with
      | true => exact absurd (hpq x hp) (by simp [hq])
      | false =>
        simp [List.countP_cons, hp, hq]
        omega
    | false =>
      cases hq : q x with
      | true =>
        simp [List.countP_cons, hp, hq]
        omega
      | false =>
        simp [List.countP_cons, hp, hq]
        omega

/-- Counting a constant predicate over List.range. -/
theorem countP_range_const (n : Nat) (b : Bool) :
    (List.range n).countP (fun _ => b) = if b then n else 0 := by
  induction n with
  | zero => simp [List.countP_nil]
  | succ m ih =>
    rw [List.range_succ, List.countP_append, ih]
    cases b <;> simp [List.countP_cons]

/-- Membership in the dedupFirst auxiliary. -/
theorem mem_dedupFirstAux (x : Nat) :
    ∀ (l seen : List Nat), x ∈ dedupFirstAux seen l ↔ x ∈ l ∧ x ∉ seen := by
  intro l
  induction l with
  | nil => intro seen; simp [dedupFirstAux]
  | cons y ys ih =>
    intro seen
    by_cases hy : y ∈ seen
    · rw [show dedupFirstAux seen (y :: ys) = dedupFirstAux seen ys by
        simp [dedupFirstAux, hy]]
      rw [ih]
      constructor
      · rintro ⟨hx, hs⟩
        exact ⟨List.mem_cons_of_mem _ hx, hs⟩
      · rintro ⟨hx, hs⟩
        rcases List.mem_cons.mp hx with rfl | hx2
        · exact absurd hy hs
        · exact ⟨hx2, hs⟩
    · rw [show dedupFirstAux seen (y :: ys) = y :: dedupFirstAux (y :: seen) ys by
        simp [dedupFirstAux, hy]]
      rw [List.mem_cons, ih]
      constructor
      · rintro (rfl | ⟨hx, hs⟩)
        · exact ⟨List.mem_cons_self _ _, hy⟩
        · refine ⟨List.mem_cons_of_mem _ hx, fun hc => hs (List.mem_cons_of_mem _ hc)⟩
      · rintro ⟨hx, hs⟩
        by_cases hxy : x = y
        · exact Or.inl hxy
        · right
          rcases List.mem_cons.mp hx with rfl | hx2
          · exact absurd rfl hxy
          · refine ⟨hx2, fun hc => ?_⟩
            rcases List.mem_cons.mp hc with rfl | hc2
            · exact hxy rfl
            · exact hs hc2

/-- dedupFirst preserves membership. -/
theorem mem_dedupFirst (x : Nat) (l : List Nat) : x ∈ dedupFirst l ↔ x ∈ l := by
  unfold dedupFirst
  rw [mem_dedupFirstAux]
  simp

/-- If the scanned list holds a suit with count 4 (or 3) and every other
suit in it has neither count, the flush scan stops at that suit with the
corresponding verdict. -/
theorem flushScan_hit (all : List Nat) (s0 : Nat) :
    ∀ l : List Nat, s0 ∈ l →
      (∀ t ∈ l, t ≠ s0 → all.count t ≠ 4 ∧ all.count t ≠ 3) →
      (all.count s0 = 4 → flushScan all l = ⟨9, 1, some .flushDraw, some s0⟩) ∧
      (all.count s0 = 3 → flushScan all l = ⟨1, 2, some .backdoorFlush, some s0⟩) := by
  intro l
  induction l with
  | nil => intro hmem; exact absurd hmem (by simp)
  | cons t ts ih =>
    intro hmem hothers
    by_cases hts : t = s0
    · subst hts
      constructor
      · intro h4
        unfold flushScan
        rw [if_pos h4]
      · intro h3
        unfold flushScan
        rw [if_neg (by omega), if_pos h3]
    · have hcnt := hothers t (List.mem_cons_self _ _) hts
      have hmem2 : s0 ∈ ts := by
        rcases List.mem_cons.mp hmem with rfl | h
        · exact absurd rfl hts
        · exact h
      have hothers2 : ∀ u ∈ ts, u ≠ s0 → all.count u ≠ 4 ∧ all.count u ≠ 3 :=
        fun u hu => hothers u (List.mem_cons_of_mem _ hu)
      have ihr := ih hmem2 hothers2
      constructor
      · intro h4
        unfold flushScan
        rw [if_neg hcnt.1, if_neg hcnt.2]
        exact ihr.1 h4
      · intro h3
        unfold flushScan
        rw [if_neg hcnt.1, if_neg hcnt.2]
        exact ihr.2 h3

/-- If no suit in the scanned list has count 4 or 3 the flush scan returns
the all-zero result. -/
theorem flushScan_none (all : List Nat) :
    ∀ l : List Nat, (∀ t ∈ l, all.count t ≠ 4 ∧ all.count t ≠ 3) →
      flushScan all l = ⟨0, 0, none, none⟩ := by
  intro l
  induction l with
  | nil => intro _; rfl
  | cons t ts ih =>
    intro h
    have hcnt := h t (List.mem_cons_self _ _)
    unfold flushScan
    rw [if_neg hcnt.1, if_neg hcnt.2]
    exact ih fun u hu => h u (List.mem_cons_of_mem _ hu)

/-! ### Claim theorems. -/

set_option maxRecDepth 8000

/-- C1 counterexample: on hand Ah Kh and board Qh Jh 2c the out total used
inside analyze (computed by SpotAnalyzer._calculate_outs) differs from the
total of OutsCalculator.calculate_outs, so the synthesizer does not compute
its outs via the section 4.2 calculator. -/
theorem claim1_counterexample : spotExampleCount ≠ calcExampleCount := by
  refine of_decide_eq_true ?_
  with_unfolding_all rfl

/-- C1 amended: SpotAnalyzer.analyze computes its outs with its own
internal simplified algorithm, not by calling OutsCalculator.calculate_outs,
and the two disagree: on hand Ah Kh, board Qh Jh 2c the analyzer totals 23
outs (9 flush + 8 straight + 6 overcards, summed without overlap removal)
while calculate_outs totals 18 (deduplicated specific cards); the two do
agree here on the flush component, 9 outs in hearts. -/
theorem claim1_theorem :
    spotExampleCount = 23 ∧ calcExampleCount = 18 ∧
    (calculateOutsImpl exampleHand exampleBoard).breakdown.flush_draw =
      ⟨9, 1, some .flushDraw, some 2⟩ := by
  refine ⟨?_, ?_, ?_⟩ <;> with_unfolding_all rfl

/-- C3 counterexample: with hand Ah Kh on board Qh 2s 3s 4s 5s four cards
share the spade suit, yet count_flush_outs reports a backdoor flush in
hearts (the count-3 suit scanned first) and no 9-out flush draw; and with
hand Ah Kh on the 4-card board Qh 2s 3c 4d (a turn, not a flop) it still
reports a backdoor flush, although the claim restricts backdoor reporting
to boards of at most 3 cards. -/
theorem claim3_counterexample :
    (([2, 2] ++ [2, 1, 1, 1, 1] : List Nat).count 1 = 4 ∧
      count_flush_outs [2, 2] [2, 1, 1, 1, 1] = ⟨1, 2, some .backdoorFlush, some 2⟩) ∧
    (([2, 1, 8, 4] : List Nat).length = 4 ∧
      count_flush_outs [2, 2] [2, 1, 8, 4] = ⟨1, 2, some .backdoorFlush, some 2⟩) :=
  ⟨⟨by decide, by with_unfolding_all rfl⟩, ⟨by decide, by with_unfolding_all rfl⟩⟩

/-- C3 amended: when at most one suit reaches three cards in hand + board,
count_flush_outs reports a 9-out flush draw in a suit exactly if that suit
has exactly 4 cards, a 1.0-unit backdoor flush exactly if it has exactly 3
cards — on any board size, not only the flop — and the zero result when no
suit has 3 or 4 cards (in particular a made flush of 5 or more suited cards
reports zero).  When two suits reach three cards the first one in
hand-then-board first-occurrence order wins, as the counterexample shows. -/
theorem claim3_theorem (hero_suits board_suits : List Nat)
    (huniq : ∀ s ∈ hero_suits ++ board_suits, ∀ t ∈ hero_suits ++ board_suits,
      3 ≤ (hero_suits ++ board_suits).count s →
      3 ≤ (hero_suits ++ board_suits).count t → s = t) :
    (∀ s, (hero_suits ++ board_suits).count s = 4 →
      count_flush_outs hero_suits board_suits = ⟨9, 1, some .flushDraw, some s⟩) ∧
    (∀ s, (hero_suits ++ board_suits).count s = 3 →
      count_flush_outs hero_suits board_suits = ⟨1, 2, some .backdoorFlush, some s⟩) ∧
    ((∀ s, (hero_suits ++ board_suits).count s ≠ 4 ∧
        (hero_suits ++ board_suits).count s ≠ 3) →
      count_flush_outs hero_suits board_suits = ⟨0, 0, none, none⟩) := by
  have hmem_of_count : ∀ s k, (hero_suits ++ board_suits).count s = k → 1 ≤ k →
      s ∈ hero_suits ++ board_suits := by
    intro s k hk h1
    by_contra hs
    rw [List.count_eq_zero_of_not_mem hs] at hk
    omega
  refine ⟨?_, ?_, ?_⟩
  · intro s h4
    have hs : s ∈ hero_suits ++ board_suits := hmem_of_count s 4 h4 (by omega)
    have hothers : ∀ t ∈ dedupFirst (hero_suits ++ board_suits), t ≠ s →
        (hero_suits ++ board_suits).count t ≠ 4 ∧
        (hero_suits ++ board_suits).count t ≠ 3 := by
      intro t ht hts
      have ht2 : t ∈ hero_suits ++ board_suits := (mem_dedupFirst t _).mp ht
      constructor <;> intro hc <;>
        exact hts (huniq t ht2 s hs (by omega) (by omega))
    have hsd : s ∈ dedupFirst (hero_suits ++ board_suits) := (mem_dedupFirst s _).mpr hs
    exact (flushScan_hit (hero_suits ++ board_suits) s _ hsd hothers).1 h4
  · intro s h3
    have hs : s ∈ hero_suits ++ board_suits := hmem_of_count s 3 h3 (by omega)
    have hothers : ∀ t ∈ dedupFirst (hero_suits ++ board_suits), t ≠ s →
        (hero_suits ++ board_suits).count t ≠ 4 ∧
        (hero_suits ++ board_suits).count t ≠ 3 := by
      intro t ht hts
      have ht2 : t ∈ hero_suits ++ board_suits := (mem_dedupFirst t _).mp ht
      constructor <;> intro hc <;>
        exact hts (huniq t ht2 s hs (by omega) (by omega))
    have hsd : s ∈ dedupFirst (hero_suits ++ board_suits) := (mem_dedupFirst s _).mpr hs
    exact (flushScan_hit (hero_suits ++ board_suits) s _ hsd hothers).2 h3
  · intro hall
    exact flushScan_none (hero_suits ++ board_suits) _ fun t _ => hall t

/-- C3 witness: the known scenario, hand Ah Kh (suits hearts hearts) on
board Qh Jh 2c (suits hearts hearts clubs): a 9-out flush draw in hearts
(treys suit 2), obtained from the amended theorem. -/
theorem claim3_witness :
    count_flush_outs [2, 2] [2, 2, 8] = ⟨9, 1, some FlushKind.flushDraw, some 2⟩ :=
  (claim3_theorem [2, 2] [2, 2, 8] (by decide)).1 2 (by decide)

/-- C4 counterexample: calculate_outs on a 2-card board returns normally (a
board outside 3..5 raises no InvalidBoardSizeError and no other error); on
hand Ah Kh with board Qh Jh it happily computes 18 outs. -/
theorem claim4_counterexample :
    ([⟨10, 2⟩, ⟨9, 2⟩] : List Card).length = 2 ∧
    (calculate_outs [⟨12, 2⟩, ⟨11, 2⟩] [⟨10, 2⟩, ⟨9, 2⟩]).isOk = true ∧
    (calculateOutsImpl [⟨12, 2⟩, ⟨11, 2⟩] [⟨10, 2⟩, ⟨9, 2⟩]).count = 18 :=
  ⟨by decide, rfl, by with_unfolding_all rfl⟩

/-- C4 amended: OutsCalculator.calculate_outs performs no board-size
validation at all — every input, of any board size, returns normally (the
board-size ValueError of the system lives in SpotAnalyzer.analyze, not
here) — and a valid-board hand with no draws returns a zero total with a
fully-populated all-zero breakdown, as for 2h 7d on 9s Jc Kd. -/
theorem claim4_theorem :
    (∀ hero_cards board_cards : List Card,
      (calculate_outs hero_cards board_cards).isOk = true) ∧
    calculateOutsImpl noDrawHand noDrawBoard =
      ⟨0, ⟨⟨0, 0, none, none⟩, ⟨0, none, []⟩, ⟨0, []⟩, ⟨0, 0, 0⟩⟩, 47, []⟩ :=
  ⟨fun _ _ => rfl, by with_unfolding_all rfl⟩

/-- C5 confirmed: for hand Kh Ts (treys ranks 11, 8) on board Qh Jh 2c
(treys ranks 10, 9, 0), count_straight_outs finds the adjacent top-end
window (A K Q J T, missing 14) and bottom-end window (K Q J T 9, missing 9)
and classifies the draw open-ended with 8 outs and missing poker ranks
9 and 14. -/
theorem claim5_theorem :
    count_straight_outs [11, 8] [10, 9, 0] =
      ⟨8, some StraightKind.openEnded, [9, 14]⟩ := by
  decide

/-- C7 counterexample: parse_range of the notation QQ+ returns the three
pairs and 18 combos, but its stored percentage is 1.4 — the source rounds
18 / 1326 * 100 = 1.357.. to one decimal — not (approximately) 1.36. -/
theorem claim7_counterexample :
    parse_range "QQ+".toList =
      .ok ⟨[['A', 'A'], ['K', 'K'], ['Q', 'Q']], ⟨18, 0, 0, 18⟩, 18, 7/5⟩ ∧
    (7 : ℚ)/5 ≠ 136/100 := by
  constructor
  · with_unfolding_all rfl
  · refine of_decide_eq_true ?_
    with_unfolding_all rfl

/-- C7 amended: parse_range of QQ+ returns the hand set QQ KK AA (sorted as
AA, KK, QQ), total combos 18 = 3 pairs times 6, and percentage 1.4, the
one-decimal Python rounding of 18 / 1326 * 100 (which is about 1.357, the
value the claim renders as 1.36). -/
theorem claim7_theorem :
    parse_range "QQ+".toList =
      .ok ⟨[['A', 'A'], ['K', 'K'], ['Q', 'Q']], ⟨18, 0, 0, 18⟩, 18,
        pyRound1 ((18 : ℚ) / 1326 * 100)⟩ ∧
    pyRound1 ((18 : ℚ) / 1326 * 100) = 7/5 := by
  constructor
  · with_unfolding_all rfl
  · with_unfolding_all rfl

/-- C8 counterexample: the single-hand token ZZ contains an unrecognized
rank, but parse_range silently accepts it — _normalize_hand performs no
rank validation — returning it as a 6-combo pair. -/
theorem claim8_counterexample :
    parse_range "ZZ".toList = .ok ⟨[['Z', 'Z']], ⟨6, 0, 0, 6⟩, 6, 1/2⟩ := by
  with_unfolding_all rfl

/-- C8 amended: parse_range does raise for malformed dash ranges (a 3-part
split), for dash ranges whose ends have different high cards or different
suit-type markers, and for unrecognized ranks inside plus tokens; but bare
single-hand tokens are never rank-validated, so an element with an
unrecognized rank can be silently accepted (see the counterexample). -/
theorem claim8_theorem :
    parse_range "QQ-JJ-88".toList = .error .invalidToken ∧
    parse_range "A5s-K5s".toList = .error .invalidToken ∧
    parse_range "A5s-A2o".toList = .error .invalidToken ∧
    parse_range "ZZ+".toList = .error .invalidToken ∧
    (parse_range "ZZ".toList).isOk = true := by
  refine ⟨?_, ?_, ?_, ?_, ?_⟩ <;> with_unfolding_all rfl

/-- C10 confirmed: at pot_size = 0 and bet_to_call = 0 the module-level
calculate_pot_odds divides by zero (ZeroDivisionError), while the
near-duplicate SpotAnalyzer._calculate_pot_odds returns 0.0; the two
implementations disagree at this edge case. -/
theorem claim10_theorem :
    calculate_pot_odds 0 0 = .error .zeroDivision ∧
    spot_calculate_pot_odds 0 0 = 0 := by
  constructor
  · with_unfolding_all rfl
  · with_unfolding_all rfl

/-- C9 counterexample: with hand 2h 2d on board 2c 7d 9s the analyzer's own
out count is 0, yet the implied-odds estimate that analyze produces for
pot 100, bet 50, stack 500 says 225 future winnings — a nonzero constant.
Under the claim (winnings scaled by the out count, capped at 15) zero outs
would have to give zero future winnings, so the claim fails on analyze. -/
theorem claim9_counterexample :
    (spot_calculate_outs zeroOutsHand zeroOutsBoard).map SpotOutsResult.count =
      .ok 0 ∧
    analyzeImpliedOdds zeroOutsHand zeroOutsBoard 100 50 500 =
      .ok ⟨1333/100, .oddsAgainst (13/2), 225⟩ ∧
    (225 : ℚ) ≠ 0 := by
  refine ⟨?_, ?_, ?_⟩
  · with_unfolding_all rfl
  · with_unfolding_all rfl
  · refine of_decide_eq_true ?_
    with_unfolding_all rfl

/-- C9 amended: the implied-odds estimate used by analyze
(SpotAnalyzer._estimate_implied_odds) ignores its outs argument entirely:
future winnings are always half of effective_stack minus bet_to_call, and
the required equity is recomputed as bet over pot + bet + winnings.  The
out-scaling with the 15-out cap described by the claim exists only in the
separate module-level poker_math.estimate_implied_odds, which analyze never
calls: there the winnings are stack times outs/15 (capped at 1) times
one half. -/
theorem claim9_theorem :
    (∀ pot bet stack outs outs2 : ℚ,
      spot_estimate_implied_odds pot bet stack outs =
        spot_estimate_implied_odds pot bet stack outs2) ∧
    (∀ pot bet stack outs : ℚ, ∀ r : ImpliedOdds,
      spot_estimate_implied_odds pot bet stack outs = .ok r →
      r.estimated_future_winnings = pyRound2 ((stack - bet) * (1/2)) ∧
      r.percentage = pyRound2 (bet / (pot + bet + (stack - bet) * (1/2)) * 100)) ∧
    (∀ pot bet stack outs : ℚ, ∀ r : ImpliedOdds, 0 ≤ outs → outs ≤ 15 →
      estimate_implied_odds pot bet stack outs = .ok r →
      r.estimated_future_winnings = stack * (outs / 15) * (1/2)) ∧
    (∀ pot bet stack outs : ℚ, ∀ r : ImpliedOdds, 15 ≤ outs →
      estimate_implied_odds pot bet stack outs = .ok r →
      r.estimated_future_winnings = stack * 1 * (1/2)) := by
  refine ⟨?_, ?_, ?_, ?_⟩
  · intro pot bet stack outs outs2
    rfl
  · intro pot bet stack outs r h
    unfold spot_estimate_implied_odds at h
    dsimp only at h
    split_ifs at h with hc
    injection h with h2
    subst h2
    exact ⟨rfl, rfl⟩
  · intro pot bet stack outs r h0 h15 h
    unfold estimate_implied_odds at h
    have hmin : min (outs / 15) 1 = outs / 15 := by
      apply min_eq_left
      rw [div_le_one (by norm_num : (0 : ℚ) < 15)]
      exact h15
    rw [hmin] at h
    dsimp only at h
    split_ifs at h with hc
    injection h with h2
    subst h2
    rfl
  · intro pot bet stack outs r h15 h
    unfold estimate_implied_odds at h
    have hmin : min (outs / 15) 1 = 1 := by
      apply min_eq_right
      rw [le_div_iff₀ (by norm_num : (0 : ℚ) < 15)]
      linarith
    rw [hmin] at h
    dsimp only at h
    split_ifs at h with hc
    injection h with h2
    subst h2
    rfl

/-- C9 witness: the amended theorem applied at pot 100, bet 50, stack 500:
the analyzer's implied-odds result is identical for 3 and for 12 outs, and
the module-level estimator at 20 outs (beyond the cap) yields winnings of
half the stack, 250. -/
theorem claim9_witness :
    spot_estimate_implied_odds 100 50 500 3 =
      spot_estimate_implied_odds 100 50 500 12 ∧
    (⟨25/2, .oddsAgainst 7, 250⟩ : ImpliedOdds).estimated_future_winnings =
      500 * 1 * (1/2) :=
  ⟨claim9_theorem.1 100 50 500 3 12,
    claim9_theorem.2.2.2 100 50 500 20 ⟨25/2, .oddsAgainst 7, 250⟩
      (by norm_num) (by with_unfolding_all rfl)⟩

/-- Counting a constant-true predicate over a range. -/
theorem countP_range_of_true (n : Nat) (b : Bool) (hb : b = true) :
    (List.range n).countP (fun _ => b) = n := by
  subst hb
  rw [countP_range_const]
  simp

/-- Counting a constant-false predicate over a range. -/
theorem countP_range_of_false (n : Nat) (b : Bool) (hb : b = false) :
    (List.range n).countP (fun _ => b) = 0 := by
  subst hb
  rw [countP_range_const]
  simp

/-- C6 confirmed: whenever EquityCalculator.calculate returns a result, the
hero equity is the Python rounding of (hero_wins + ties/2) / iterations *
100, the villain equity is computed symmetrically, and the two sum to
exactly 100 (so certainly within rounding tolerance); the equality is exact
because round-half-to-even of a value and of its complement to an even
total always sum back to that total. -/
theorem claim6_theorem (score : List Card → List Card → Nat)
    (hero villain board : List Card) (iterations : Nat)
    (drawFn : Nat → List Card) (r : EquityResult)
    (h : EquityCalculator.calculate score hero villain board iterations drawFn = .ok r) :
    r.hero_equity =
      pyRound2 (((r.hero_wins : ℚ) + (r.ties : ℚ) / 2) / (r.iterations : ℚ) * 100) ∧
    r.villain_equity =
      pyRound2 (((r.villain_wins : ℚ) + (r.ties : ℚ) / 2) / (r.iterations : ℚ) * 100) ∧
    r.hero_equity + r.villain_equity = 100 := by
  unfold EquityCalculator.calculate at h
  split_ifs at h with h1 h2 h3 h4 h5
  injection h with h6
  subst h6
  refine ⟨rfl, rfl, ?_⟩
  dsimp only
  have hpq : ∀ a, trialHeroWin score hero villain board drawFn a = true →
      trialVillainWin score hero villain board drawFn a = false := by
    intro a ha
    unfold trialHeroWin at ha
    unfold trialVillainWin
    simp only [decide_eq_true_eq] at ha
    simp only [decide_eq_false_iff_not]
    omega
  have hsum : (List.range iterations).countP
        (trialHeroWin score hero villain board drawFn) +
      (List.range iterations).countP
        (trialVillainWin score hero villain board drawFn) +
      (List.range iterations).countP
        (trialTie score hero villain board drawFn) = iterations := by
    have hp := countP_partition (trialHeroWin score hero villain board drawFn)
      (trialVillainWin score hero villain board drawFn) hpq (List.range iterations)
    simpa [trialTie, List.length_range] using hp
  set hw := (List.range iterations).countP
    (trialHeroWin score hero villain board drawFn) with hhw
  set vw := (List.range iterations).countP
    (trialVillainWin score hero villain board drawFn) with hvw
  set t := (List.range iterations).countP
    (trialTie score hero villain board drawFn) with ht
  have hne : ((iterations : ℚ)) ≠ 0 := Nat.cast_ne_zero.mpr h5
  have hcast : (hw : ℚ) + (vw : ℚ) + (t : ℚ) = (iterations : ℚ) := by
    exact_mod_cast hsum
  have hB : ((vw : ℚ) + (t : ℚ) / 2) / (iterations : ℚ) * 100 =
      100 - ((hw : ℚ) + (t : ℚ) / 2) / (iterations : ℚ) * 100 := by
    field_simp
    ring_nf
    ring_nf at hcast
    linarith
  rw [hB]
  exact pyRound2_compl _

/-- C6 witness: the sum law instantiated with a constant oracle, hands
2h 2d versus 3h 3d, an empty board and one iteration: the all-tie outcome
rounds to 50 plus 50 equals 100. -/
theorem claim6_witness : (50 : ℚ) + 50 = 100 :=
  (claim6_theorem (fun _ _ => 0) zeroOutsHand [⟨1, 2⟩, ⟨1, 4⟩] [] 1 (fun _ => [])
    ⟨50, 50, 0, 0, 1, 1⟩ (by with_unfolding_all rfl)).2.2

/-- C2 counterexample: on the completed river board As Ks Qs Js Ts (a royal
flush on the board) the hands 2h 2d and 3h 3d tie every trial under the
modelled poker oracle, so estimate_equity returns hero_equity exactly 50 —
neither 0 nor 100 — refuting the claimed dichotomy. -/
theorem claim2_counterexample :
    EquityCalculator.calculate pokerScore zeroOutsHand [⟨1, 2⟩, ⟨1, 4⟩]
      royalBoard 1 (fun _ => []) = .ok ⟨50, 50, 0, 0, 1, 1⟩ ∧
    (50 : ℚ) ≠ 0 ∧ (50 : ℚ) ≠ 100 := by
  refine ⟨?_, by norm_num, by norm_num⟩
  with_unfolding_all rfl

/-- C2 amended: on a fully dealt 5-card board estimate_equity is indeed
deterministic — the drawn cards are ignored, so any two random streams give
the identical result — but the hero equity is exactly 0, 50 or 100: the
single repeated showdown is a villain win, a tie (split pot, equity 50), or
a hero win. -/
theorem claim2_theorem (score : List Card → List Card → Nat)
    (hero villain board : List Card) (iterations : Nat)
    (drawFn drawFn2 : Nat → List Card) (hb : board.length = 5) :
    EquityCalculator.calculate score hero villain board iterations drawFn =
      EquityCalculator.calculate score hero villain board iterations drawFn2 ∧
    (∀ r : EquityResult,
      EquityCalculator.calculate score hero villain board iterations drawFn = .ok r →
      r.hero_equity = 0 ∨ r.hero_equity = 50 ∨ r.hero_equity = 100) := by
  have hsim : ∀ (d : Nat → List Card) (i : Nat), simBoard board d i = board := by
    intro d i
    simp [simBoard, hb]
  have eH : ∀ d : Nat → List Card, trialHeroWin score hero villain board d =
      fun _ => decide (score board hero < score board villain) := by
    intro d
    funext i
    simp only [trialHeroWin, hsim]
  have eV : ∀ d : Nat → List Card, trialVillainWin score hero villain board d =
      fun _ => decide (score board villain < score board hero) := by
    intro d
    funext i
    simp only [trialVillainWin, hsim]
  have eT : ∀ d : Nat → List Card, trialTie score hero villain board d =
      fun _ => (!decide (score board hero < score board villain) &&
        !decide (score board villain < score board hero)) := by
    intro d
    funext i
    simp only [trialTie, trialHeroWin, trialVillainWin, hsim]
  constructor
  · unfold EquityCalculator.calculate
    rw [eH drawFn, eH drawFn2, eV drawFn, eV drawFn2, eT drawFn, eT drawFn2]
  · intro r h
    unfold EquityCalculator.calculate at h
    split_ifs at h with h1 h2 h3 h4 h5
    injection h with h6
    subst h6
    dsimp only
    rw [eH drawFn, eT drawFn]
    have hne : ((iterations : ℚ)) ≠ 0 := Nat.cast_ne_zero.mpr h5
    rcases Nat.lt_trichotomy (score board hero) (score board villain) with hlt | heq | hgt
    · have d1 : decide (score board hero < score board villain) = true :=
        decide_eq_true hlt
      have d2 : decide (score board villain < score board hero) = false :=
        decide_eq_false (by omega)
      rw [countP_range_of_true iterations _ d1,
        countP_range_of_false iterations _ (by rw [d1, d2]; rfl)]
      right
      right
      have harg : ((iterations : ℚ) + ((0 : ℕ) : ℚ) / 2) / (iterations : ℚ) * 100 = 100 := by
        push_cast
        field_simp
      rw [harg]
      exact pyRound2_hundred
    · have d1 : decide (score board hero < score board villain) = false :=
        decide_eq_false (by omega)
      have d2 : decide (score board villain < score board hero) = false :=
        decide_eq_false (by omega)
      rw [countP_range_of_false iterations _ d1,
        countP_range_of_true iterations _ (by rw [d1, d2]; rfl)]
      right
      left
      have harg : (((0 : ℕ) : ℚ) + (iterations : ℚ) / 2) / (iterations : ℚ) * 100 = 50 := by
        push_cast
        field_simp
        ring
      rw [harg]
      exact pyRound2_fifty
    · have d1 : decide (score board hero < score board villain) = false :=
        decide_eq_false (by omega)
      have d2 : decide (score board villain < score board hero) = true :=
        decide_eq_true hgt
      rw [countP_range_of_false iterations _ d1,
        countP_range_of_false iterations _ (by rw [d1, d2]; rfl)]
      left
      have harg : (((0 : ℕ) : ℚ) + ((0 : ℕ) : ℚ) / 2) / (iterations : ℚ) * 100 = 0 := by
        push_cast
        field_simp
      rw [harg]
      exact pyRound2_zero

/-- C2 witness: the amended theorem at a concrete complete board with a
constant oracle and two different random streams: the two calls agree and
the tied result has equity 50. -/
theorem claim2_witness :
    (EquityCalculator.calculate (fun _ _ => 0) zeroOutsHand [⟨1, 2⟩, ⟨1, 4⟩]
        royalBoard 1 (fun _ => []) =
      EquityCalculator.calculate (fun _ _ => 0) zeroOutsHand [⟨1, 2⟩, ⟨1, 4⟩]
        royalBoard 1 (fun _ => [⟨2, 8⟩])) ∧
    ((50 : ℚ) = 0 ∨ (50 : ℚ) = 50 ∨ (50 : ℚ) = 100) :=
  ⟨(claim2_theorem (fun _ _ => 0) zeroOutsHand [⟨1, 2⟩, ⟨1, 4⟩] royalBoard 1
      (fun _ => []) (fun _ => [⟨2, 8⟩]) rfl).1,
    (claim2_theorem (fun _ _ => 0) zeroOutsHand [⟨1, 2⟩, ⟨1, 4⟩] royalBoard 1
      (fun _ => []) (fun _ => [⟨2, 8⟩]) rfl).2 ⟨50, 50, 0, 0, 1, 1⟩
      (by with_unfolding_all rfl)⟩
